import Mathlib

/-!
# Verification of the credit-risk preprocessing / training pipeline

A shallow embedding of the `credit-risk-scoring-system` repository: the
`CreditRiskPreprocessor` fit/transform contract and the `train.py` driver
that builds and serializes the model artifact.

The repository ships `train.py` (the training driver) and the package
`__init__.py`; the module defining `CreditRiskPreprocessor` itself is not
part of the sources available here, so the preprocessor's operations are
modelled from the specification (section 4.1 of the design document),
faithfully to its words.  Floating-point numbers are idealized as real
numbers.
-/

namespace CreditRisk

/-- A cell of a raw table: numeric (real-valued) or categorical (a label). -/
inductive Value where
  | num (x : ℝ)
  | cat (s : String)

/-- A raw row: a finite map from column names to values. -/
abbrev Row := List (String × Value)

/-- Look up a column in a row (first occurrence). -/
def Row.lookup (r : Row) (c : String) : Option Value :=
  (r.find? (fun p => p.1 = c)).map (·.2)

/-- Numeric view of a cell: `some x` only when the column exists and holds a number. -/
def Row.getNum (r : Row) (c : String) : Option ℝ :=
  match r.lookup c with
  | some (.num x) => some x
  | _ => none

/-- Categorical view of a cell: `some s` only when the column exists and holds a label. -/
def Row.getCat (r : Row) (c : String) : Option String :=
  match r.lookup c with
  | some (.cat s) => some s
  | _ => none

/-- A raw record table: an explicit column-name list (the header, as in a
dataframe) together with an ordered sequence of rows. -/
structure Table where
  cols : List String
  rows : List Row

/-- The numeric feature columns required by the preprocessor. -/
def numericColumns : List String := ["Income", "LoanAmount", "CreditHistory"]

/-- The categorical feature columns required by the preprocessor. -/
def categoricalColumns : List String := ["WorkExperience", "HomeOwnership"]

/-- Schema validity: every required column is present in the header and every
row holds a value of the right kind for it.  A missing required column at fit
or transform time is a `SchemaError`. -/
def Table.validSchema (t : Table) : Prop :=
  (∀ c ∈ numericColumns, c ∈ t.cols ∧ ∀ r ∈ t.rows, (r.getNum c).isSome) ∧
  (∀ c ∈ categoricalColumns, c ∈ t.cols ∧ ∀ r ∈ t.rows, (r.getCat c).isSome)

instance (t : Table) : Decidable t.validSchema := by
  unfold Table.validSchema; infer_instance

/-- The values of a numeric column, in row order. -/
def colValues (t : Table) (c : String) : List ℝ :=
  t.rows.filterMap (fun r => r.getNum c)

/-- The labels of a categorical column, in row order. -/
def colCats (t : Table) (c : String) : List String :=
  t.rows.filterMap (fun r => r.getCat c)

/-- Distinct values of a list in the order first encountered: the documented
deterministic enumeration rule for one-hot categories. -/
def firstSeen (l : List String) : List String :=
  l.foldl (fun acc x => if x ∈ acc then acc else acc ++ [x]) []

/-- Categories of a categorical column observed at fit time, in
first-encountered order. -/
def observedCats (t : Table) (c : String) : List String :=
  firstSeen (colCats t c)

/-- Mean of a list of reals (`0` for the empty list, where `0 / 0 = 0`). -/
noncomputable def listMean (xs : List ℝ) : ℝ := xs.sum / xs.length

/-- Population variance of a list of reals. -/
noncomputable def listVar (xs : List ℝ) : ℝ :=
  ((xs.map (fun x => (x - listMean xs) ^ 2)).sum) / xs.length

/-- Standard deviation of a list of reals. -/
noncomputable def listStd (xs : List ℝ) : ℝ := Real.sqrt (listVar xs)

/-- Name of the indicator (one-hot) column for category `cat` of column `c`. -/
def indicatorName (c cat : String) : String := c ++ "_" ++ cat

/-- Modelled from the spec: the fit-time statistics of `CreditRiskPreprocessor`
(whose defining module is not among the available sources).  Per numeric
column a mean and a standard deviation, per categorical column the observed
category list, plus the ordered feature name list. -/
structure FittedState where
  means : List ℝ
  stds : List ℝ
  cats : List (List String)
  feature_names : List String

/-- Modelled from the spec: the two-state lifecycle of the preprocessor,
`unfit` at construction, `fitted` after `fit_transform`. -/
inductive PreprocState where
  | unfit
  | fitted (s : FittedState)

/-- Modelled from the spec: a `CreditRiskPreprocessor` instance is its
lifecycle state. -/
structure CreditRiskPreprocessor where
  state : PreprocState

/-- A freshly constructed preprocessor (`CreditRiskPreprocessor()`), unfit. -/
def newPreprocessor : CreditRiskPreprocessor := ⟨.unfit⟩

/-- The error kinds of the preprocessor. -/
inductive PreprocError where
  | SchemaError
  | NotFittedError
  | DegenerateColumnError
deriving DecidableEq

/-- A processed row: output column names paired with numeric values. -/
abbrev ProcRow := List (String × ℝ)

/-- A processed table. -/
abbrev ProcTable := List ProcRow

/-- Modelled from the spec: the statistics `fit_transform` computes from the
training table — per-numeric-column mean and standard deviation, observed
categories per categorical column in first-encountered order, and the ordered
feature name list (standardized numeric columns first, then the indicator
columns of each categorical column). -/
noncomputable def fitStats (t : Table) : FittedState :=
  { means := numericColumns.map (fun c => listMean (colValues t c))
    stds := numericColumns.map (fun c => listStd (colValues t c))
    cats := categoricalColumns.map (fun c => observedCats t c)
    feature_names :=
      numericColumns ++
        categoricalColumns.flatMap (fun c => (observedCats t c).map (indicatorName c)) }

/-- The 0/1 indicator value of category `cat` of column `c` in row `r`:
`1` exactly when the row's label equals `cat`. -/
def indicatorValue (r : Row) (c cat : String) : ℝ :=
  if r.getCat c = some cat then 1 else 0

/-- Modelled from the spec: one output row of the stored transformation —
each numeric column standardized by the stored `(mean, std)`, each stored
category expanded to the 0/1 indicator of the row's label; a label never
seen at fit time matches no stored category, so its indicators are all zero. -/
noncomputable def rowOut (s : FittedState) (r : Row) : ProcRow :=
  (numericColumns.zip (s.means.zip s.stds)).map
    (fun p => (p.1, ((r.getNum p.1).getD 0 - p.2.1) / p.2.2)) ++
  (categoricalColumns.zip s.cats).flatMap
    (fun p => p.2.map (fun cat => (indicatorName p.1 cat, indicatorValue r p.1 cat)))

open Classical in
/-- Modelled from the spec: `fit_transform(table)` — fails with `SchemaError`
when a required column is absent, with `DegenerateColumnError` when a numeric
column has zero variance (a standard deviation of zero would otherwise divide
by zero); otherwise stores the fit statistics and returns the fitted
preprocessor together with the processed table. -/
noncomputable def CreditRiskPreprocessor.fit_transform
    (_p : CreditRiskPreprocessor) (t : Table) :
    Except PreprocError (CreditRiskPreprocessor × ProcTable) :=
  if ¬ t.validSchema then .error .SchemaError
  else if ∃ c ∈ numericColumns, listVar (colValues t c) = 0 then
    .error .DegenerateColumnError
  else
    .ok (⟨.fitted (fitStats t)⟩, t.rows.map (rowOut (fitStats t)))

/-- Modelled from the spec: `transform(table)` — `NotFittedError` before any
fit, `SchemaError` on a missing required column, and otherwise applies the
stored statistics and category maps, emitting the stored feature name list
order with absent features as zero. -/
noncomputable def CreditRiskPreprocessor.transform
    (p : CreditRiskPreprocessor) (t : Table) : Except PreprocError ProcTable :=
  match p.state with
  | .unfit => .error .NotFittedError
  | .fitted s =>
    if ¬ t.validSchema then .error .SchemaError
    else .ok (t.rows.map (rowOut s))

/-- The scaling-parameter record returned by `get_scaling_params`:
per-numeric-column means and standard deviations. -/
structure ScalingParams where
  means : List ℝ
  stds : List ℝ

/-- Modelled from the spec: `get_scaling_params()` — returns the stored
per-numeric-column `(mean, std)` mapping, in the same order as the numeric
columns appear in the feature name list; `none` on an unfit instance. -/
def CreditRiskPreprocessor.get_scaling_params
    (p : CreditRiskPreprocessor) : Option ScalingParams :=
  match p.state with
  | .unfit => none
  | .fitted s => some ⟨s.means, s.stds⟩

/-- Lines 82–85 of `train.py`: the `scaling_params.means` entry of the JSON
artifact, built by zipping `preprocessor.feature_names` with the means
returned by `get_scaling_params` (Python's `zip` truncates at the shorter
argument). -/
def artifactScalingMeans (featureNames : List String) (sp : ScalingParams) :
    List (String × ℝ) :=
  featureNames.zip sp.means

/-- Lines 82–85 of `train.py`: the `scaling_params.stds` entry of the JSON
artifact, built the same way from the stds. -/
def artifactScalingStds (featureNames : List String) (sp : ScalingParams) :
    List (String × ℝ) :=
  featureNames.zip sp.stds

/-- The `feature_names` attribute of the preprocessor: the stored feature
name list of a fitted instance (empty before fit). -/
def CreditRiskPreprocessor.feature_names (p : CreditRiskPreprocessor) : List String :=
  match p.state with
  | .unfit => []
  | .fitted s => s.feature_names

/-! ## The training driver (`train.py`)

External numerical libraries (the numpy global generator, the train/test
splitter, the logistic-regression fitter, the evaluation metrics) are
modelled as deterministic functions of their inputs and of the random seed
they are handed; the exact numeric streams stand in for the library
internals and are irrelevant to the verified properties.  The ambient
`Environment` carries the operating-system entropy that an *unseeded*
random source would consume; the determinism claim is exactly that the
script's outputs do not depend on it, because every random source in
`train.py` pins its seed to the literal `42`. -/

/-- Ambient randomness of the operating environment: what an unseeded
random source would fall back to. -/
structure Environment where
  entropy : Nat

/-- Seed resolution of the external random libraries: an explicitly pinned
seed wins; absent one, the ambient entropy is consumed. -/
def resolveSeed (pinned : Option Nat) (env : Environment) : Nat :=
  pinned.getD env.entropy

/-- The state of the external pseudo-random generator (numpy's global RNG
after `np.random.seed`): a seed plus a draw counter. -/
structure RngState where
  seed : Nat
  counter : Nat

/-- Models `np.random.seed(n)` (`train.py` line 24): reset the global generator to
a pure function of `n`. -/
def npSeed (n : Nat) : RngState := ⟨n, 0⟩

/-- One raw integer draw of the modelled generator: a deterministic mix of
seed and counter, standing in for the external Mersenne-twister step. -/
def RngState.drawNat (g : RngState) : Nat × RngState :=
  (((g.seed + 1) * 2654435761 + g.counter * 40503) % 65536, ⟨g.seed, g.counter + 1⟩)

/-- One raw draw in `[0, 1)` of the modelled generator. -/
noncomputable def RngState.draw (g : RngState) : ℝ × RngState :=
  let (k, g') := g.drawNat
  ((k : ℝ) / 65536, g')

/-- A batch of `n` raw draws in `[0, 1)`. -/
noncomputable def draws (g : RngState) : (n : Nat) → List ℝ × RngState
  | 0 => ([], g)
  | n + 1 =>
    let (u, g') := g.draw
    let (us, g'') := draws g' n
    (u :: us, g'')

/-- Models `np.random.normal(mu, sigma, n)` as a deterministic
seed-indexed batch of reals located and scaled by `mu` and `sigma`. -/
noncomputable def npNormal (mu sigma : ℝ) (n : Nat) (g : RngState) :
    List ℝ × RngState :=
  let (us, g') := draws g n
  (us.map (fun u => mu + sigma * (2 * u - 1)), g')

/-- Models `np.random.uniform(lo, hi, n)` likewise. -/
noncomputable def npUniform (lo hi : ℝ) (n : Nat) (g : RngState) :
    List ℝ × RngState :=
  let (us, g') := draws g n
  (us.map (fun u => lo + (hi - lo) * u), g')

/-- Models `np.random.choice(opts, n)` as seed-determined selections. -/
def npChoice (opts : List String) (g : RngState) : (n : Nat) → List String × RngState
  | 0 => ([], g)
  | n + 1 =>
    let (k, g') := g.drawNat
    let (ss, g'') := npChoice opts g' n
    (opts.getD (k % opts.length) "" :: ss, g'')

/-- The sample count `n_samples = 1000` (`train.py` line 25). -/
def sampleCount : Nat := 1000

/-- Lines 24–45 of `train.py`: seed the global generator with the literal 42,
draw the five feature columns, derive the default probability from the
loan-to-income ratio and credit history, draw the `Default` labels, and
assemble the raw feature table `X` together with the label vector `y`. -/
noncomputable def generateData (env : Environment) : Table × List ℝ :=
  let g0 := npSeed (resolveSeed (some 42) env)
  let p1 := npNormal 60000 20000 sampleCount g0
  let p2 := npNormal 150000 50000 sampleCount p1.2
  let p3 := npUniform 0 30 sampleCount p2.2
  let p4 := npChoice ["0-2 years", "2-5 years", "5+ years"] p3.2 sampleCount
  let p5 := npChoice ["Rent", "Mortgage", "Own"] p4.2 sampleCount
  let income := p1.1
  let loan := p2.1
  let credit := p3.1
  let lti := List.zipWith (fun l i => l / i) loan income
  let prob := List.zipWith
    (fun x ch => 1 / (1 + Real.exp (-(x * 2 - ch / 10 - 1)))) lti credit
  let us := (draws p5.2 sampleCount).1
  let defaults := List.zipWith (fun u q => if u < q then (1 : ℝ) else 0) us prob
  let rows := List.zipWith
    (fun nums wh =>
      [("Income", Value.num nums.1), ("LoanAmount", Value.num nums.2.1),
       ("CreditHistory", Value.num nums.2.2),
       ("WorkExperience", Value.cat wh.1), ("HomeOwnership", Value.cat wh.2)])
    (List.zipWith (fun a bc => (a, bc)) income (List.zipWith Prod.mk loan credit))
    (List.zipWith Prod.mk p4.1 p5.1)
  (⟨["Income", "LoanAmount", "CreditHistory", "WorkExperience", "HomeOwnership"],
    rows⟩, defaults)

/-- Models the external `train_test_split(X, y, test_size=0.2,
random_state=42, stratify=y)` (`train.py` line 55): a deterministic
partition of the rows governed by the resolved random state — a
seed-dependent rotation followed by the 80/20 cut. -/
def trainTestSplit (t : Table) (y : List ℝ) (env : Environment) :
    (Table × Table) × (List ℝ × List ℝ) :=
  let seed := resolveSeed (some 42) env
  let n := t.rows.length
  let k := seed % (n + 1)
  let rotR := t.rows.drop k ++ t.rows.take k
  let rotY := y.drop k ++ y.take k
  let nTest := n / 5
  ((⟨t.cols, rotR.drop nTest⟩, ⟨t.cols, rotR.take nTest⟩),
    (rotY.drop nTest, rotY.take nTest))

/-- Models the external
`LogisticRegression(random_state=42, max_iter=1000).fit` (`train.py`
line 62): the produced intercept and coefficient vector are a
deterministic function of the processed training table, the labels, and
the handed random state. -/
noncomputable def logisticFit (xs : ProcTable) (y : List ℝ) (seed : Nat) :
    ℝ × List ℝ :=
  let featureCount := (xs.headD []).length
  let coef := (List.range featureCount).map (fun j =>
    (List.zipWith (fun row yl => (row.getD j ("", 0)).2 * (2 * yl - 1)) xs y).sum
      / ((xs.length : ℝ) + (seed : ℝ) + 1))
  (y.sum / (y.length + 1) - (seed : ℝ) / ((seed : ℝ) + 1), coef)

open Classical in
/-- Models the external `accuracy_score`: fraction of coinciding labels. -/
noncomputable def accuracyScore (yTrue yPred : List ℝ) : ℝ :=
  (List.zipWith (fun a b => if a = b then (1 : ℝ) else 0) yTrue yPred).sum
    / yTrue.length

/-- Models the external `roc_auc_score` as a deterministic score of the
labels and the predicted probabilities. -/
noncomputable def rocAucScore (yTrue scores : List ℝ) : ℝ :=
  (List.zipWith (fun a sc => (2 * a - 1) * sc) yTrue scores).sum
    / ((yTrue.length : ℝ) + 1)

/-- The persisted `model_coefficients.json` document (`train.py`
lines 79–94). -/
structure Artifact where
  intercept : ℝ
  coefficients : List (String × ℝ)
  scaling_means : List (String × ℝ)
  scaling_stds : List (String × ℝ)
  accuracy : ℝ
  roc_auc : ℝ

/-- The whole of `train.py`: generate the data, split it, fit and apply the
preprocessor, fit the regression, score the test set and assemble the
persisted artifact (`none` when the pipeline aborts with an exception). -/
noncomputable def trainDriver (env : Environment) : Option Artifact :=
  let gen := generateData env
  let split := trainTestSplit gen.1 gen.2 env
  match newPreprocessor.fit_transform split.1.1 with
  | .error _ => none
  | .ok (p, xTrainP) =>
    match p.transform split.1.2 with
    | .error _ => none
    | .ok xTestP =>
      match p.get_scaling_params with
      | none => none
      | some sp =>
        let s := resolveSeed (some 42) env
        let fit := logisticFit xTrainP split.2.1 s
        let fn := p.feature_names
        let scores := xTestP.map (fun row =>
          fit.1 + (List.zipWith (fun c pr => c * pr.2) fit.2 row).sum)
        let preds := scores.map (fun sc => if 0 < sc then (1 : ℝ) else 0)
        some { intercept := fit.1
               coefficients := fn.zip fit.2
               scaling_means := artifactScalingMeans fn sp
               scaling_stds := artifactScalingStds fn sp
               accuracy := accuracyScore split.2.2 preds
               roc_auc := rocAucScore split.2.2 scores }

/-! ## Concrete instances used by the witnesses -/

/-- First concrete fit row: all numeric cells `1`, categories
`"0-2 years"` and `"Rent"`. -/
def row0 : Row :=
  [("Income", .num 1), ("LoanAmount", .num 1), ("CreditHistory", .num 1),
   ("WorkExperience", .cat "0-2 years"), ("HomeOwnership", .cat "Rent")]

/-- Second concrete fit row: all numeric cells `3`, categories
`"5+ years"` and `"Own"`. -/
def row1 : Row :=
  [("Income", .num 3), ("LoanAmount", .num 3), ("CreditHistory", .num 3),
   ("WorkExperience", .cat "5+ years"), ("HomeOwnership", .cat "Own")]

/-- A concrete two-row training table on which fitting succeeds. -/
def T0 : Table :=
  ⟨["Income", "LoanAmount", "CreditHistory", "WorkExperience", "HomeOwnership"],
   [row0, row1]⟩

/-- The preprocessor fitted on `T0`. -/
noncomputable def P0 : CreditRiskPreprocessor := ⟨.fitted (fitStats T0)⟩

/-- The processed table `fit_transform` returns on `T0`. -/
noncomputable def O0 : ProcTable := T0.rows.map (rowOut (fitStats T0))

/-- A concrete table whose `Income` column is constant (zero variance). -/
def Tdeg : Table :=
  ⟨["Income", "LoanAmount", "CreditHistory", "WorkExperience", "HomeOwnership"],
   [[("Income", .num 2), ("LoanAmount", .num 1), ("CreditHistory", .num 1),
     ("WorkExperience", .cat "0-2 years"), ("HomeOwnership", .cat "Rent")],
    [("Income", .num 2), ("LoanAmount", .num 3), ("CreditHistory", .num 3),
     ("WorkExperience", .cat "5+ years"), ("HomeOwnership", .cat "Own")]]⟩

/-- A concrete transform row carrying the never-observed work-experience
label `"10+ years"`. -/
def rowU : Row :=
  [("Income", .num 5), ("LoanAmount", .num 6), ("CreditHistory", .num 7),
   ("WorkExperience", .cat "10+ years"), ("HomeOwnership", .cat "Rent")]

/-- A concrete one-row transform batch for the fitted `P0`. -/
def T1 : Table :=
  ⟨["Income", "LoanAmount", "CreditHistory", "WorkExperience", "HomeOwnership"],
   [rowU]⟩

/-- Extract a named output column from a processed table (first occurrence
of the name in each row). -/
def procCol (pt : ProcTable) (c : String) : List ℝ :=
  pt.filterMap (fun row => (row.find? (fun p => p.1 = c)).map Prod.snd)

/-! ## Inversion and evaluation lemmas -/

/-- Inversion of a successful `fit_transform`: the schema was valid, no
numeric column was degenerate, and the result is the fitted statistics with
the standardized/encoded rows. -/
theorem fit_transform_ok_iff (p : CreditRiskPreprocessor) (t : Table)
    (p' : CreditRiskPreprocessor) (out : ProcTable) :
    p.fit_transform t = .ok (p', out) ↔
      t.validSchema ∧ (∀ c ∈ numericColumns, listVar (colValues t c) ≠ 0) ∧
        p' = ⟨.fitted (fitStats t)⟩ ∧ out = t.rows.map (rowOut (fitStats t)) := by
  unfold CreditRiskPreprocessor.fit_transform
  constructor
  · intro h
    by_cases h1 : t.validSchema
    · by_cases h2 : ∃ c ∈ numericColumns, listVar (colValues t c) = 0
      · rw [if_neg (not_not_intro h1), if_pos h2] at h
        exact absurd h (by simp)
      · rw [if_neg (not_not_intro h1), if_neg h2] at h
        simp only [Except.ok.injEq, Prod.mk.injEq] at h
        exact ⟨h1, fun c hc hv => h2 ⟨c, hc, hv⟩, h.1.symm, h.2.symm⟩
    · rw [if_pos h1] at h
      exact absurd h (by simp)
  · rintro ⟨h1, h2, rfl, rfl⟩
    rw [if_neg (not_not_intro h1),
      if_neg (by rintro ⟨c, hc, hv⟩; exact h2 c hc hv)]

/-- A `transform` on a fitted instance with a schema-valid table applies the
stored transformation to every row. -/
theorem transform_fitted (s : FittedState) (t : Table) (h : t.validSchema) :
    CreditRiskPreprocessor.transform ⟨.fitted s⟩ t =
      .ok (t.rows.map (rowOut s)) := by
  show (if ¬ t.validSchema then Except.error PreprocError.SchemaError
    else Except.ok (t.rows.map (rowOut s))) = Except.ok (t.rows.map (rowOut s))
  rw [if_neg (not_not_intro h)]

theorem T0_schema : T0.validSchema := by
  constructor <;> intro c hc <;> fin_cases hc <;>
    simp [T0, row0, row1, Row.getNum, Row.getCat, Row.lookup, List.find?]

theorem T0_colValues : ∀ c ∈ numericColumns, colValues T0 c = [1, 3] := by
  intro c hc
  fin_cases hc <;>
    simp [colValues, T0, row0, row1, Row.getNum, Row.lookup, List.find?]

theorem T0_nondegenerate :
    ∀ c ∈ numericColumns, listVar (colValues T0 c) ≠ 0 := by
  intro c hc
  rw [T0_colValues c hc]
  norm_num [listVar, listMean]

theorem T0_fit : newPreprocessor.fit_transform T0 = .ok (P0, O0) :=
  (fit_transform_ok_iff newPreprocessor T0 P0 O0).mpr
    ⟨T0_schema, T0_nondegenerate, rfl, rfl⟩

/-! ## The claims -/

/-- C1: after a successful `fit_transform(t)`, calling `transform(t)` on the
resulting fitted instance with the identical table returns the very
processed table `fit_transform(t)` returned. -/
theorem transform_on_fit_table_reproduces_output
    (p : CreditRiskPreprocessor) (t : Table) (p' : CreditRiskPreprocessor)
    (out : ProcTable) (hfit : p.fit_transform t = .ok (p', out)) :
    p'.transform t = .ok out := by
  obtain ⟨h1, -, rfl, rfl⟩ := (fit_transform_ok_iff p t p' out).mp hfit
  exact transform_fitted _ t h1

theorem transform_on_fit_table_reproduces_output_witness :
    newPreprocessor.fit_transform T0 = .ok (P0, O0) ∧ P0.transform T0 = .ok O0 :=
  ⟨T0_fit,
    transform_on_fit_table_reproduces_output newPreprocessor T0 P0 O0 T0_fit⟩

/-- C5: `transform` on an unfit instance raises `NotFittedError`, whatever
the input table. -/
theorem transform_before_fit_raises_notFittedError
    (p : CreditRiskPreprocessor) (h : p.state = .unfit) (t : Table) :
    p.transform t = .error .NotFittedError := by
  unfold CreditRiskPreprocessor.transform
  rw [h]

theorem transform_before_fit_raises_notFittedError_witness :
    newPreprocessor.state = .unfit ∧
      newPreprocessor.transform T0 = .error .NotFittedError :=
  ⟨rfl, transform_before_fit_raises_notFittedError newPreprocessor rfl T0⟩

/-- C6: `fit_transform` on a table whose header lacks a required column —
in particular `Income` — raises `SchemaError`. -/
theorem fit_transform_missing_column_raises_schemaError
    (p : CreditRiskPreprocessor) (t : Table) (c : String)
    (hc : c ∈ numericColumns ++ categoricalColumns) (h : c ∉ t.cols) :
    p.fit_transform t = .error .SchemaError := by
  unfold CreditRiskPreprocessor.fit_transform
  rw [if_pos]
  intro hv
  rcases List.mem_append.mp hc with h1 | h1
  · exact h (hv.1 c h1).1
  · exact h (hv.2 c h1).1

theorem fit_transform_missing_column_raises_schemaError_witness :
    "Income" ∈ numericColumns ++ categoricalColumns ∧
      "Income" ∉ (Table.mk ["LoanAmount"] []).cols ∧
      CreditRiskPreprocessor.fit_transform newPreprocessor ⟨["LoanAmount"], []⟩ =
        .error .SchemaError :=
  ⟨by simp [numericColumns, categoricalColumns], by simp,
    fit_transform_missing_column_raises_schemaError newPreprocessor
      ⟨["LoanAmount"], []⟩ "Income" (by simp [numericColumns, categoricalColumns])
      (by simp)⟩

/-- C9: a successful `fit_transform` returns a processed table with exactly
as many rows as the input table. -/
theorem fit_transform_preserves_row_count (t : Table)
    (p' : CreditRiskPreprocessor) (out : ProcTable)
    (hfit : newPreprocessor.fit_transform t = .ok (p', out)) :
    out.length = t.rows.length := by
  obtain ⟨-, -, -, rfl⟩ := (fit_transform_ok_iff _ t p' out).mp hfit
  simp

theorem fit_transform_preserves_row_count_witness :
    newPreprocessor.fit_transform T0 = .ok (P0, O0) ∧
      O0.length = T0.rows.length :=
  ⟨T0_fit, fit_transform_preserves_row_count T0 P0 O0 T0_fit⟩

/-- C7: on a schema-valid table with a zero-variance numeric column,
`fit_transform` fails with the named `DegenerateColumnError`: the zero-std
case is special-cased rather than dividing by zero. -/
theorem fit_transform_zero_variance_raises_degenerateColumnError
    (p : CreditRiskPreprocessor) (t : Table) (h : t.validSchema)
    (c : String) (hc : c ∈ numericColumns)
    (hv : listVar (colValues t c) = 0) :
    p.fit_transform t = .error .DegenerateColumnError := by
  unfold CreditRiskPreprocessor.fit_transform
  rw [if_neg (not_not_intro h), if_pos ⟨c, hc, hv⟩]

theorem Tdeg_schema : Tdeg.validSchema := by
  constructor <;> intro c hc <;> fin_cases hc <;>
    simp [Tdeg, Row.getNum, Row.getCat, Row.lookup, List.find?]

theorem Tdeg_income_constant : colValues Tdeg "Income" = [2, 2] := by
  simp [colValues, Tdeg, Row.getNum, Row.lookup, List.find?]

theorem fit_transform_zero_variance_raises_degenerateColumnError_witness :
    Tdeg.validSchema ∧ "Income" ∈ numericColumns ∧
      listVar (colValues Tdeg "Income") = 0 ∧
      newPreprocessor.fit_transform Tdeg = .error .DegenerateColumnError :=
  ⟨Tdeg_schema, by simp [numericColumns],
    by rw [Tdeg_income_constant]; norm_num [listVar, listMean],
    fit_transform_zero_variance_raises_degenerateColumnError newPreprocessor
      Tdeg Tdeg_schema "Income" (by simp [numericColumns])
      (by rw [Tdeg_income_constant]; norm_num [listVar, listMean])⟩

/-- Zipping the feature name list (numeric columns first) against a list
indexed by the numeric columns truncates exactly at the numeric columns. -/
theorem zip_featureNames_numericMap (rest : List String) (f : String → ℝ) :
    (numericColumns ++ rest).zip (numericColumns.map f) =
      [("Income", f "Income"), ("LoanAmount", f "LoanAmount"),
       ("CreditHistory", f "CreditHistory")] := by
  simp [numericColumns, List.zip_cons_cons, List.zip_nil_right]

/-- C2: after a successful fit, `get_scaling_params` returns the stored
per-numeric-column means and stds in numeric-column order, and the
`scaling_params.means` / `scaling_params.stds` mappings the training driver
persists (zipping the feature name list against those lists) are keyed by
exactly `Income`, `LoanAmount`, `CreditHistory` and valued by the fit-time
mean respectively standard deviation of each column. -/
theorem artifact_scaling_params_keyed_by_numeric_columns
    (t : Table) (p' : CreditRiskPreprocessor) (out : ProcTable)
    (hfit : newPreprocessor.fit_transform t = .ok (p', out)) :
    p'.get_scaling_params =
        some ⟨numericColumns.map (fun c => listMean (colValues t c)),
              numericColumns.map (fun c => listStd (colValues t c))⟩ ∧
      artifactScalingMeans p'.feature_names
          ⟨numericColumns.map (fun c => listMean (colValues t c)),
           numericColumns.map (fun c => listStd (colValues t c))⟩ =
        [("Income", listMean (colValues t "Income")),
         ("LoanAmount", listMean (colValues t "LoanAmount")),
         ("CreditHistory", listMean (colValues t "CreditHistory"))] ∧
      artifactScalingStds p'.feature_names
          ⟨numericColumns.map (fun c => listMean (colValues t c)),
           numericColumns.map (fun c => listStd (colValues t c))⟩ =
        [("Income", listStd (colValues t "Income")),
         ("LoanAmount", listStd (colValues t "LoanAmount")),
         ("CreditHistory", listStd (colValues t "CreditHistory"))] := by
  obtain ⟨-, -, rfl, -⟩ := (fit_transform_ok_iff _ t p' out).mp hfit
  refine ⟨rfl, ?_, ?_⟩
  · simp only [artifactScalingMeans, CreditRiskPreprocessor.feature_names, fitStats]
    rw [zip_featureNames_numericMap]
  · simp only [artifactScalingStds, CreditRiskPreprocessor.feature_names, fitStats]
    rw [zip_featureNames_numericMap]

theorem artifact_scaling_params_keyed_by_numeric_columns_witness :
    newPreprocessor.fit_transform T0 = .ok (P0, O0) ∧
      P0.get_scaling_params =
        some ⟨numericColumns.map (fun c => listMean (colValues T0 c)),
              numericColumns.map (fun c => listStd (colValues T0 c))⟩ ∧
      artifactScalingMeans P0.feature_names
          ⟨numericColumns.map (fun c => listMean (colValues T0 c)),
           numericColumns.map (fun c => listStd (colValues T0 c))⟩ =
        [("Income", listMean (colValues T0 "Income")),
         ("LoanAmount", listMean (colValues T0 "LoanAmount")),
         ("CreditHistory", listMean (colValues T0 "CreditHistory"))] :=
  ⟨T0_fit,
    (artifact_scaling_params_keyed_by_numeric_columns T0 P0 O0 T0_fit).1,
    (artifact_scaling_params_keyed_by_numeric_columns T0 P0 O0 T0_fit).2.1⟩

/-- C10: the training driver is deterministic as a whole — every random
source of `train.py` pins its seed to the literal `42`, so the generated
data, the train/test split and the persisted artifact are independent of
the ambient entropy of the environment. -/
theorem training_driver_deterministic (env₁ env₂ : Environment) :
    generateData env₁ = generateData env₂ ∧
      trainTestSplit (generateData env₁).1 (generateData env₁).2 env₁ =
        trainTestSplit (generateData env₂).1 (generateData env₂).2 env₂ ∧
      trainDriver env₁ = trainDriver env₂ :=
  ⟨rfl, rfl, rfl⟩

/-- An element of a list, paired with its image, occurs in the zip of the
list with its map. -/
theorem mem_zip_map_self {α β : Type} (g : α → β) (l : List α) (c : α)
    (h : c ∈ l) : (c, g c) ∈ l.zip (l.map g) := by
  induction l with
  | nil => cases h
  | cons a l ih =>
    rcases List.mem_cons.mp h with rfl | h
    · exact List.mem_cons_self _ _
    · exact List.mem_cons_of_mem _ (ih h)

/-- The indicator entries an output row derives from one categorical column
form a contiguous segment of the row. -/
theorem rowOut_indicator_segment (s : FittedState) (r : Row) (c : String)
    (cs : List String) (hc : (c, cs) ∈ categoricalColumns.zip s.cats) :
    ∃ pre post, rowOut s r =
      pre ++ (cs.map (fun cat => (indicatorName c cat, indicatorValue r c cat)))
        ++ post := by
  obtain ⟨l₁, l₂, hsplit⟩ := List.append_of_mem hc
  refine ⟨(numericColumns.zip (s.means.zip s.stds)).map
      (fun p => (p.1, ((r.getNum p.1).getD 0 - p.2.1) / p.2.2)) ++
      l₁.flatMap (fun p => p.2.map
        (fun cat => (indicatorName p.1 cat, indicatorValue r p.1 cat))),
    l₂.flatMap (fun p => p.2.map
      (fun cat => (indicatorName p.1 cat, indicatorValue r p.1 cat))), ?_⟩
  unfold rowOut
  rw [hsplit]
  simp [List.flatMap_append, List.flatMap_cons, List.append_assoc]

/-- The column names of an output row are exactly the stored feature name
list, in order. -/
theorem rowOut_keys (t : Table) (r : Row) :
    (rowOut (fitStats t) r).map Prod.fst = (fitStats t).feature_names := by
  simp [rowOut, fitStats, numericColumns, categoricalColumns,
    Function.comp_def]

/-- C3: a fitted preprocessor transforms any schema-valid batch without
error, even when a row carries a categorical value never observed at fit
time; the indicator entries that row's output derives from that column (a
contiguous segment of the output row) are then all zero. -/
theorem unseen_category_yields_zero_indicators
    (t : Table) (p' : CreditRiskPreprocessor) (out : ProcTable)
    (hfit : newPreprocessor.fit_transform t = .ok (p', out))
    (t' : Table) (h' : t'.validSchema) (r : Row) (hr : r ∈ t'.rows)
    (c : String) (hc : c ∈ categoricalColumns)
    (v : String) (hv : r.getCat c = some v) (hnew : v ∉ observedCats t c) :
    p'.transform t' = .ok (t'.rows.map (rowOut (fitStats t))) ∧
      rowOut (fitStats t) r ∈ t'.rows.map (rowOut (fitStats t)) ∧
      (∃ pre post, rowOut (fitStats t) r =
        pre ++ ((observedCats t c).map
          (fun cat => (indicatorName c cat, indicatorValue r c cat))) ++ post) ∧
      ∀ cat ∈ observedCats t c, indicatorValue r c cat = 0 := by
  obtain ⟨-, -, rfl, -⟩ := (fit_transform_ok_iff _ t p' out).mp hfit
  refine ⟨transform_fitted _ t' h', List.mem_map_of_mem _ hr, ?_, ?_⟩
  · refine rowOut_indicator_segment (fitStats t) r c (observedCats t c) ?_
    rw [show (fitStats t).cats =
      categoricalColumns.map (fun c => observedCats t c) from rfl]
    exact mem_zip_map_self _ _ _ hc
  · intro cat hcat
    unfold indicatorValue
    rw [hv, if_neg]
    intro hEq
    injection hEq with hEq
    exact hnew (hEq ▸ hcat)

theorem T1_schema : T1.validSchema := by
  constructor <;> intro c hc <;> fin_cases hc <;>
    simp [T1, rowU, Row.getNum, Row.getCat, Row.lookup, List.find?]

theorem rowU_work : rowU.getCat "WorkExperience" = some "10+ years" := by
  simp [rowU, Row.getCat, Row.lookup, List.find?]

theorem T0_observed_work :
    observedCats T0 "WorkExperience" = ["0-2 years", "5+ years"] := by
  simp [observedCats, colCats, firstSeen, T0, row0, row1, Row.getCat,
    Row.lookup, List.find?]

theorem unseen_category_yields_zero_indicators_witness :
    newPreprocessor.fit_transform T0 = .ok (P0, O0) ∧ T1.validSchema ∧
      rowU.getCat "WorkExperience" = some "10+ years" ∧
      "10+ years" ∉ observedCats T0 "WorkExperience" ∧
      P0.transform T1 = .ok (T1.rows.map (rowOut (fitStats T0))) ∧
      indicatorValue rowU "WorkExperience" "0-2 years" = 0 ∧
      indicatorValue rowU "WorkExperience" "5+ years" = 0 := by
  have hnew : "10+ years" ∉ observedCats T0 "WorkExperience" := by
    rw [T0_observed_work]; simp
  have happ := unseen_category_yields_zero_indicators T0 P0 O0 T0_fit T1
    T1_schema rowU (by simp [T1]) "WorkExperience" (by simp [categoricalColumns])
    "10+ years" rowU_work hnew
  exact ⟨T0_fit, T1_schema, rowU_work, hnew, happ.1,
    happ.2.2.2 "0-2 years" (by rw [T0_observed_work]; simp),
    happ.2.2.2 "5+ years" (by rw [T0_observed_work]; simp)⟩

/-- C4: a fitted preprocessor emits, for every row of any schema-valid
batch, exactly the stored feature name list as column names in the stored
order; an indicator feature whose category is exhibited nowhere in the
batch is present in every output row with value zero. -/
theorem transform_emits_stored_feature_list_filling_zero
    (t : Table) (p' : CreditRiskPreprocessor) (out : ProcTable)
    (hfit : newPreprocessor.fit_transform t = .ok (p', out))
    (t' : Table) (h' : t'.validSchema) :
    p'.transform t' = .ok (t'.rows.map (rowOut (fitStats t))) ∧
      (∀ r ∈ t'.rows, (rowOut (fitStats t) r).map Prod.fst = p'.feature_names) ∧
      ∀ c ∈ categoricalColumns, ∀ cat ∈ observedCats t c,
        (∀ r ∈ t'.rows, r.getCat c ≠ some cat) →
        ∀ r ∈ t'.rows, indicatorValue r c cat = 0 ∧
          (indicatorName c cat, indicatorValue r c cat) ∈ rowOut (fitStats t) r := by
  obtain ⟨-, -, rfl, -⟩ := (fit_transform_ok_iff _ t p' out).mp hfit
  refine ⟨transform_fitted _ t' h', fun r _ => rowOut_keys t r, ?_⟩
  intro c hc cat hcat habsent r hr
  constructor
  · unfold indicatorValue
    rw [if_neg (habsent r hr)]
  · obtain ⟨pre, post, hseg⟩ :=
      rowOut_indicator_segment (fitStats t) r c (observedCats t c)
        (by rw [show (fitStats t).cats =
            categoricalColumns.map (fun c => observedCats t c) from rfl]
            exact mem_zip_map_self _ _ _ hc)
    rw [hseg]
    simp only [List.mem_append]
    exact Or.inl (Or.inr (List.mem_map_of_mem _ hcat))

theorem transform_emits_stored_feature_list_filling_zero_witness :
    newPreprocessor.fit_transform T0 = .ok (P0, O0) ∧ T1.validSchema ∧
      (rowOut (fitStats T0) rowU).map Prod.fst = P0.feature_names ∧
      indicatorValue rowU "WorkExperience" "5+ years" = 0 ∧
      (indicatorName "WorkExperience" "5+ years",
        indicatorValue rowU "WorkExperience" "5+ years") ∈
        rowOut (fitStats T0) rowU := by
  have habsent : ∀ r ∈ T1.rows, r.getCat "WorkExperience" ≠ some "5+ years" := by
    intro r hr
    have : r = rowU := by simpa [T1] using hr
    rw [this, rowU_work]
    simp
  have happ := transform_emits_stored_feature_list_filling_zero T0 P0 O0
    T0_fit T1 T1_schema
  have hzero := happ.2.2 "WorkExperience" (by simp [categoricalColumns])
    "5+ years" (by rw [T0_observed_work]; simp) habsent rowU (by simp [T1])
  exact ⟨T0_fit, T1_schema, happ.2.1 rowU (by simp [T1]), hzero.1, hzero.2⟩

theorem sum_map_sub_const (xs : List ℝ) (a : ℝ) :
    (xs.map (fun x => x - a)).sum = xs.sum - xs.length * a := by
  induction xs with
  | nil => simp
  | cons x xs ih =>
    simp only [List.map_cons, List.sum_cons, List.length_cons, ih]
    push_cast
    ring

theorem sum_map_div_const (xs : List ℝ) (f : ℝ → ℝ) (a : ℝ) :
    (xs.map (fun x => f x / a)).sum = (xs.map f).sum / a := by
  induction xs with
  | nil => simp
  | cons x xs ih =>
    simp only [List.map_cons, List.sum_cons, ih]
    ring

theorem listMean_shift_scale (xs : List ℝ) (a b : ℝ)
    (h : (xs.length : ℝ) ≠ 0) :
    listMean (xs.map (fun x => (x - a) / b)) = (listMean xs - a) / b := by
  unfold listMean
  rw [sum_map_div_const, sum_map_sub_const, List.length_map, div_right_comm]
  congr 1
  rw [sub_div, mul_div_cancel_left₀ _ h]

theorem listVar_shift_scale (xs : List ℝ) (a b : ℝ)
    (h : (xs.length : ℝ) ≠ 0) :
    listVar (xs.map (fun x => (x - a) / b)) = listVar xs / b ^ 2 := by
  unfold listVar
  rw [listMean_shift_scale xs a b h, List.map_map, List.length_map]
  have hfun : ((fun x => (x - (listMean xs - a) / b) ^ 2) ∘ fun x => (x - a) / b) =
      fun x => (x - listMean xs) ^ 2 / b ^ 2 := by
    funext x
    simp only [Function.comp_apply]
    rw [div_sub_div_same, div_pow,
      show x - a - (listMean xs - a) = x - listMean xs from by ring]
  rw [hfun, sum_map_div_const, div_right_comm]

theorem listVar_nonneg (xs : List ℝ) : 0 ≤ listVar xs := by
  unfold listVar
  apply div_nonneg _ (Nat.cast_nonneg _)
  apply List.sum_nonneg
  intro x hx
  obtain ⟨a, -, rfl⟩ := List.mem_map.mp hx
  positivity

theorem listStd_standardized (xs : List ℝ) (hne : listVar xs ≠ 0) :
    listStd (xs.map (fun x => (x - listMean xs) / listStd xs)) = 1 := by
  have hxs : xs ≠ [] := by
    rintro rfl
    exact hne (by simp [listVar])
  have hn : (xs.length : ℝ) ≠ 0 := by
    simpa [List.length_eq_zero] using hxs
  have hv : 0 < listVar xs := (listVar_nonneg xs).lt_of_ne (Ne.symm hne)
  have hst : listStd xs ^ 2 = listVar xs := Real.sq_sqrt hv.le
  have hone : listVar (xs.map (fun x => (x - listMean xs) / listStd xs)) = 1 := by
    rw [listVar_shift_scale xs _ _ hn, hst, div_self hne]
  show Real.sqrt (listVar (xs.map (fun x => (x - listMean xs) / listStd xs))) = 1
  rw [hone, Real.sqrt_one]

theorem filterMap_some_fun {α β : Type} (g : α → β) (l : List α) :
    l.filterMap (fun x => some (g x)) = l.map g := by
  induction l with
  | nil => rfl
  | cons x l ih => simp [List.filterMap_cons, ih]

theorem filterMap_getNum_eq_map (c : String) (rs : List Row)
    (h : ∀ r ∈ rs, (r.getNum c).isSome) :
    rs.filterMap (fun r => r.getNum c) = rs.map (fun r => (r.getNum c).getD 0) := by
  induction rs with
  | nil => rfl
  | cons r rs ih =>
    obtain ⟨x, hx⟩ := Option.isSome_iff_exists.mp (h r (List.mem_cons_self _ _))
    simp [List.filterMap_cons, hx,
      ih (fun r hr => h r (List.mem_cons_of_mem _ hr))]

/-- In an output row, looking up a numeric column finds its standardized
value. -/
theorem rowOut_find_numeric (t : Table) (r : Row) (c : String)
    (hc : c ∈ numericColumns) :
    ((rowOut (fitStats t) r).find? (fun p => p.1 = c)).map Prod.snd =
      some (((r.getNum c).getD 0 - listMean (colValues t c)) /
        listStd (colValues t c)) := by
  fin_cases hc <;> simp [rowOut, fitStats, numericColumns]

/-- The numeric column `c` of the processed table is the standardized image
of the raw column. -/
theorem procCol_map (t : Table) (h : t.validSchema) (c : String)
    (hc : c ∈ numericColumns) :
    procCol (t.rows.map (rowOut (fitStats t))) c =
      (colValues t c).map (fun x =>
        (x - listMean (colValues t c)) / listStd (colValues t c)) := by
  have h1 : ∀ r ∈ t.rows, (r.getNum c).isSome := fun r hr => (h.1 c hc).2 r hr
  have h2 : ((fun row => (List.find? (fun p => p.1 = c) row).map Prod.snd) ∘
      rowOut (fitStats t)) = fun r =>
      some (((r.getNum c).getD 0 - listMean (colValues t c)) /
        listStd (colValues t c)) := by
    funext r
    exact rowOut_find_numeric t r c hc
  unfold procCol
  rw [List.filterMap_map, h2, filterMap_some_fun]
  generalize listMean (colValues t c) = mu
  generalize listStd (colValues t c) = sg
  unfold colValues
  rw [filterMap_getNum_eq_map c t.rows h1, List.map_map]
  simp [Function.comp_def]

/-- C8: every numeric column of the table a successful `fit_transform`
returns has mean exactly 0 and standard deviation exactly 1 (success rules
out the degenerate zero-variance case). -/
theorem fit_transform_standardizes_numeric_columns
    (t : Table) (p' : CreditRiskPreprocessor) (out : ProcTable)
    (hfit : newPreprocessor.fit_transform t = .ok (p', out))
    (c : String) (hc : c ∈ numericColumns) :
    listMean (procCol out c) = 0 ∧ listStd (procCol out c) = 1 := by
  obtain ⟨h1, h2, -, rfl⟩ := (fit_transform_ok_iff _ t p' out).mp hfit
  have hv := h2 c hc
  have hxs : colValues t c ≠ [] := by
    rintro hnil
    exact hv (by rw [hnil]; simp [listVar])
  have hn : ((colValues t c).length : ℝ) ≠ 0 := by
    simpa [List.length_eq_zero] using hxs
  rw [procCol_map t h1 c hc]
  refine ⟨?_, listStd_standardized _ hv⟩
  rw [listMean_shift_scale _ _ _ hn, sub_self, zero_div]

theorem fit_transform_standardizes_numeric_columns_witness :
    newPreprocessor.fit_transform T0 = .ok (P0, O0) ∧
      "Income" ∈ numericColumns ∧
      listMean (procCol O0 "Income") = 0 ∧ listStd (procCol O0 "Income") = 1 :=
  ⟨T0_fit, by simp [numericColumns],
    (fit_transform_standardizes_numeric_columns T0 P0 O0 T0_fit "Income"
      (by simp [numericColumns])).1,
    (fit_transform_standardizes_numeric_columns T0 P0 O0 T0_fit "Income"
      (by simp [numericColumns])).2⟩

end CreditRisk
